import Mathlib

/-!
Shallow embedding of `src/gateway/messagehandler.py` (daqopen-cloud gateway).

Conventions of the embedding:
* Decoded JSON data is modelled by `JVal`; Python dicts become association
  lists in insertion order (Python ≥ 3.7 dicts preserve insertion order, and
  dicts produced by `json.loads` have pairwise distinct keys).
* Python exceptions are modelled with `Except PyErr`; a function that can
  raise returns `Except PyErr α`, a function that catches internally returns
  a plain value.
* The InfluxDB write (`InfluxDBClient.write_points`) is external I/O; it is
  modelled by a boolean oracle `write_ok` saying whether the write call
  succeeds or raises.
* The SQLite device registry is modelled as a partial map from device id to
  the stored `device_info` TEXT column, pre-split into "parses as JSON value
  v" (`JsonText.valid v`) or "is not valid JSON" (`JsonText.invalid`).
* The text layer of `json.dumps`/`json.loads` is treated as the invertible
  encoding of JSON trees that it is; serialization is modelled at the level
  of JSON values.
-/

/-- A JSON value as produced by Python's `json.loads` (which also accepts the
non-standard literal `NaN`, kept as a separate constructor `nan`). -/
inductive JVal where
  | null
  | bool (b : Bool)
  | num (q : ℚ)
  | nan
  | str (s : String)
  | arr (elems : List JVal)
  | obj (kvs : List (String × JVal))

/-- The Python exceptions that the gateway code can raise. -/
inductive PyErr where
  | keyError
  | typeError
  | attributeError
  | indexError
  | valueError
  | jsonDecode
  | gzipError
  | unboundLocal
  deriving DecidableEq

/-- Python dict item assignment `d[k] = v`: replace the first binding of `k`
(dicts have at most one) keeping its position, else append at the end. -/
def upsert (k : String) (v : JVal) : List (String × JVal) → List (String × JVal)
  | [] => [(k, v)]
  | kv :: rest => if kv.1 = k then (k, v) :: rest else kv :: upsert k v rest

/-- Python dict membership lookup `d.get(k)` (first binding wins). -/
def findVal (kvs : List (String × JVal)) (k : String) : Option JVal :=
  (kvs.find? (fun kv => kv.1 == k)).map (·.2)

/-- Python dict subscript `d[k]`: `KeyError` when the key is absent. -/
def lookupKey (kvs : List (String × JVal)) (k : String) : Except PyErr JVal :=
  match findVal kvs k with
  | some v => .ok v
  | none => .error .keyError

/-- Subscripting a non-dict JSON value with a string key (`data["k"]` in the
source) raises `TypeError`. -/
def asObjSub : JVal → Except PyErr (List (String × JVal))
  | .obj kvs => .ok kvs
  | _ => .error .typeError

/-- Calling `.items()` on a non-dict raises `AttributeError`. -/
def asObjItems : JVal → Except PyErr (List (String × JVal))
  | .obj kvs => .ok kvs
  | _ => .error .attributeError

/-- The source only ever iterates/indexes JSON arrays here; any other value
is rejected (the claims never exercise Python's other iterables). -/
def asList : JVal → Except PyErr (List JVal)
  | .arr xs => .ok xs
  | _ => .error .typeError

/-- Python list subscript `xs[i]`: `IndexError` past the end. -/
def listIdx (xs : List JVal) (i : Nat) : Except PyErr JVal :=
  match xs[i]? with
  | some v => .ok v
  | none => .error .indexError

/-- `math.isnan(x)`: `True` on NaN, `False` on other numbers (including
Python's bool, a numeric type), `TypeError` on non-numbers. -/
def isnanE : JVal → Except PyErr Bool
  | .nan => .ok true
  | .num _ => .ok false
  | .bool _ => .ok false
  | _ => .error .typeError

/-- `datetime.datetime.fromtimestamp(x, tz=UTC)`: needs a numeric epoch
(bools count as 0/1); NaN raises `ValueError`. -/
def toEpoch : JVal → Except PyErr ℚ
  | .num q => .ok q
  | .bool b => .ok (if b then 1 else 0)
  | .nan => .error .valueError
  | _ => .error .typeError

/-- A point's timestamp: either a `datetime` built from an epoch
(`fromtimestamp`) or a raw JSON value passed through unchanged. -/
inductive TimeVal where
  | dt (epoch : ℚ)
  | raw (v : JVal)

/-- One InfluxDB point dict as built by the transform functions. The
`fields` slot holds whatever JSON value the source puts there (for the event
transform it is the payload's `data` value verbatim). -/
structure Point where
  measurement : String
  tags : List (String × JVal)
  time : TimeVal
  fields : JVal

/-- Python f-string `f"{idx:02d}"`: zero-pad to width two. -/
def padTwo (n : Nat) : String :=
  if n < 10 then "0" ++ toString n else toString n

/-- The `DeviceInfo` dataclass. Python dataclasses do not enforce the type
annotations, and every value ever stored in a `DeviceInfo` in this program
comes from JSON (registry blob or cache row) or from the JSON-representable
defaults, so all fields are modelled as `JVal`. The defaults mirror the
dataclass defaults (`daqinfo` defaults to `{}`, `last_seen` to `None`). -/
structure DeviceInfo where
  device_id : JVal
  friendly_name : JVal := .str "box01"
  location : JVal := .str "unkown"
  target_database : JVal := .str "daqopen"
  aggregated_data_measurement : JVal := .str "agg_data"
  daqinfo : JVal := .obj []
  last_seen : JVal := .null

/-! ## The aggregated transform (`aggregated_data_to_json_list`) -/

/-- `db_vector_dict[idx]["fields"][ch_name] = item`, creating
`db_vector_dict[idx]` on first use.  The per-index points are materialised
from this (index, fields) map at the end; dict iteration order is first-use
order of the index, exactly as in the source. -/
def vec_add (idx : Nat) (ch : String) (item : JVal) :
    List (Nat × List (String × JVal)) → List (Nat × List (String × JVal))
  | [] => [(idx, [(ch, item)])]
  | e :: rest =>
      if e.1 = idx then (e.1, upsert ch item e.2) :: rest
      else e :: vec_add idx ch item rest

/-- Loop body of `for idx, item in enumerate(val)` in the aggregated
transform: skip NaN entries, otherwise record the value under its index. -/
def item_step (ch : String) (vec : List (Nat × List (String × JVal)))
    (iv : Nat × JVal) : Except PyErr (List (Nat × List (String × JVal))) := do
  let b ← isnanE iv.2
  if b then pure vec else pure (vec_add iv.1 ch iv.2 vec)

/-- The inner loop over one channel's array. -/
def agg_items (ch : String) (vec : List (Nat × List (String × JVal)))
    (items : List (Nat × JVal)) :
    Except PyErr (List (Nat × List (String × JVal))) :=
  items.foldlM (item_step ch) vec

/-- Loop body of `for ch_name, val in data['data'].items()`: arrays go to the
per-index map, `None` scalars are skipped, all other scalars go to the scalar
point's field dict. -/
def chan_step
    (st : List (String × JVal) × List (Nat × List (String × JVal)))
    (ch : String × JVal) :
    Except PyErr (List (String × JVal) × List (Nat × List (String × JVal))) :=
  match ch.2 with
  | .arr items => do
      let vec ← agg_items ch.1 st.2 items.enum
      pure (st.1, vec)
  | .null => pure st
  | v => pure (upsert ch.1 v st.1, st.2)

/-- The loop over all channels. -/
def agg_chans
    (st : List (String × JVal) × List (Nat × List (String × JVal)))
    (chans : List (String × JVal)) :
    Except PyErr (List (String × JVal) × List (Nat × List (String × JVal))) :=
  chans.foldlM chan_step st

/-- `aggregated_data_to_json_list(data, device_info)`: one scalar point with
the non-null scalar channels, then one `order`-tagged point per array index
holding at least one non-NaN entry, in first-appearance order. -/
def aggregated_data_to_json_list (data : JVal) (device_info : DeviceInfo) :
    Except PyErr (List Point) := do
  let kvs ← asObjSub data
  let interval ← lookupKey kvs "interval_sec"
  let ts ← toEpoch (← lookupKey kvs "timestamp")
  let tags : List (String × JVal) :=
    [("device_id", device_info.device_id),
     ("location", device_info.location),
     ("interval_sec", interval)]
  let ddata ← asObjItems (← lookupKey kvs "data")
  let res ← agg_chans ([], []) ddata
  pure (Point.mk "agg_data" tags (.dt ts) (.obj res.1) ::
    res.2.map (fun e =>
      Point.mk "agg_data" (tags ++ [("order", .str (padTwo e.1))])
        (.dt ts) (.obj e.2)))

/-! ## The dataseries transform (`dataseries_to_json_list`) -/

/-- Loop body of `for idx, ts in enumerate(ch_data['timestamps'])`: the
`ch_data['data'][idx]` lookups happen inside the loop, so a missing `data`
key in a channel with an empty `timestamps` array raises nothing. -/
def ds_item_step (tags : List (String × JVal)) (chkvs : List (String × JVal))
    (ch : String) (acc : List Point) (it : Nat × JVal) :
    Except PyErr (List Point) := do
  let ds ← asList (← lookupKey chkvs "data")
  let v ← listIdx ds it.1
  pure (acc ++ [Point.mk "dataseries" tags (.raw it.2) (.obj [(ch, v)])])

/-- Loop body of `for ch_name, ch_data in data['data'].items()`. -/
def ds_chan_step (tags : List (String × JVal)) (acc : List Point)
    (ch : String × JVal) : Except PyErr (List Point) := do
  let chkvs ← asObjSub ch.2
  let tss ← asList (← lookupKey chkvs "timestamps")
  tss.enum.foldlM (ds_item_step tags chkvs ch.1) acc

/-- `dataseries_to_json_list(data, device_info)`: one point per
(channel, sample index) pair, each with that sample's own timestamp. -/
def dataseries_to_json_list (data : JVal) (device_info : DeviceInfo) :
    Except PyErr (List Point) := do
  let kvs ← asObjSub data
  let tags : List (String × JVal) :=
    [("device_id", device_info.device_id),
     ("location", device_info.location)]
  let dd ← asObjItems (← lookupKey kvs "data")
  dd.foldlM (ds_chan_step tags) []

/-! ## The event transform (`event_to_json_list`) -/

/-- `event_to_json_list(data, device_info)`: exactly one point whose fields
slot is the payload's `data` value verbatim. -/
def event_to_json_list (data : JVal) (device_info : DeviceInfo) :
    Except PyErr (List Point) := do
  let kvs ← asObjSub data
  let et ← lookupKey kvs "event_type"
  let chan ← lookupKey kvs "channel"
  let ts ← toEpoch (← lookupKey kvs "timestamp")
  let flds ← lookupKey kvs "data"
  pure [Point.mk "events"
    [("device_id", device_info.device_id),
     ("location", device_info.location),
     ("event_type", et),
     ("channel", chan)]
    (.dt ts) flds]

/-! ## Registry lookup, payload decoding, cache queue, dispatch -/

/-- A TEXT column / raw byte string that either parses as the JSON value `v`
or fails JSON parsing. -/
inductive JsonText where
  | valid (v : JVal)
  | invalid

/-- Raw MQTT payload bytes: either plain text or a gzip-compressed text. -/
inductive RawBytes where
  | plain (t : JsonText)
  | gz (t : JsonText)

/-- `json.loads` on a text: `json.JSONDecodeError` when it is not JSON. -/
def json_loads : JsonText → Except PyErr JVal
  | .valid v => .ok v
  | .invalid => .error .jsonDecode

/-- `gzip.decompress`: plain (non-gzip) bytes raise `BadGzipFile`. -/
def gzip_decompress : RawBytes → Except PyErr JsonText
  | .gz t => .ok t
  | .plain _ => .error .gzipError

/-- `json.loads` applied directly to payload bytes: gzip binary is never
valid JSON text. -/
def json_loads_bytes : RawBytes → Except PyErr JVal
  | .plain t => json_loads t
  | .gz _ => .error .jsonDecode

/-- `decode_payload(payload, encoding)`. For an encoding other than
`"gjson"` and `"json"` neither branch assigns `payload_dict`, so the final
`return payload_dict` raises `UnboundLocalError`. -/
def decode_payload (payload : RawBytes) (encoding : String) :
    Except PyErr JVal :=
  if encoding = "gjson" then
    match gzip_decompress payload with
    | .error e => .error e
    | .ok t => json_loads t
  else if encoding = "json" then
    json_loads_bytes payload
  else
    .error .unboundLocal

/-- The field names of the `DeviceInfo` dataclass, in declaration order. -/
def deviceFieldNames : List String :=
  ["device_id", "friendly_name", "location", "target_database",
   "aggregated_data_measurement", "daqinfo", "last_seen"]

/-- `DeviceInfo(**info)`: every key must name a dataclass field (otherwise
`TypeError: unexpected keyword argument`), `device_id` has no default and is
required, all other fields fall back to their dataclass defaults. -/
def deviceInfoOfKwargs (kvs : List (String × JVal)) :
    Except PyErr DeviceInfo :=
  if kvs.all (fun kv => deviceFieldNames.contains kv.1) then
    match findVal kvs "device_id" with
    | none => .error .typeError
    | some did =>
        .ok { device_id := did
              friendly_name := (findVal kvs "friendly_name").getD (.str "box01")
              location := (findVal kvs "location").getD (.str "unkown")
              target_database :=
                (findVal kvs "target_database").getD (.str "daqopen")
              aggregated_data_measurement :=
                (findVal kvs "aggregated_data_measurement").getD
                  (.str "agg_data")
              daqinfo := (findVal kvs "daqinfo").getD (.obj [])
              last_seen := (findVal kvs "last_seen").getD .null }
  else .error .typeError

/-- `device_info.__dict__` followed by `json.dumps`: the dataclass fields as
a JSON object in declaration order. -/
def deviceInfoDumps (d : DeviceInfo) : JVal :=
  .obj [("device_id", d.device_id),
        ("friendly_name", d.friendly_name),
        ("location", d.location),
        ("target_database", d.target_database),
        ("aggregated_data_measurement", d.aggregated_data_measurement),
        ("daqinfo", d.daqinfo),
        ("last_seen", d.last_seen)]

/-- `read_device_info(db_path, device_id)`: fetch the `device_info` blob for
the id; when a row exists, `json.loads` it, force `info["device_id"]` to the
lookup argument, and build `DeviceInfo(**info)`; when no row exists, return
`None`. The SQLite table is modelled as the map `db`. -/
def read_device_info (db : String → Option JsonText) (device_id : String) :
    Except PyErr (Option DeviceInfo) :=
  match db device_id with
  | none => .ok none
  | some txt =>
      match json_loads txt with
      | .error e => .error e
      | .ok blob =>
          match asObjSub blob with
          | .error e => .error e
          | .ok kvs =>
              match deviceInfoOfKwargs
                  (upsert "device_id" (.str device_id) kvs) with
              | .error e => .error e
              | .ok di => .ok (some di)

/-- One row of the `data_cache` SQLite table, with the two serialized TEXT
columns kept as JSON values (the text codec being invertible). -/
structure CacheRow where
  id : Nat
  data_type : String
  device_info : JVal
  data : JVal

/-- The `data_cache` table contents in rowid order (a SQLite table scan
returns rows in rowid order). -/
abbrev CacheState := List CacheRow

/-- SQLite's automatic `INTEGER PRIMARY KEY` assignment without
`AUTOINCREMENT`: one larger than the largest rowid currently in the table
(so the rowid of a deleted maximal row can be reused). -/
def nextRowId (st : CacheState) : Nat :=
  (st.map (·.id)).foldr max 0 + 1

/-- `cache_data(data_type, device_info, data)`: serialize and append a new
row with the next automatically assigned id. -/
def cache_data (st : CacheState) (data_type : String)
    (device_info : DeviceInfo) (data : JVal) : CacheState :=
  st ++ [⟨nextRowId st, data_type, deviceInfoDumps device_info, data⟩]

/-- `get_cached_data()`: `SELECT * FROM data_cache LIMIT 1` (first row of the
scan, i.e. lowest rowid), deserialized back into a
`(id, data_type, DeviceInfo, data)` tuple; `None` on an empty table. The
function performs no state change. -/
def get_cached_data (st : CacheState) :
    Except PyErr (Option (Nat × String × DeviceInfo × JVal)) :=
  match st with
  | [] => .ok none
  | row :: _ =>
      match asObjSub row.device_info with
      | .error e => .error e
      | .ok kvs =>
          match deviceInfoOfKwargs kvs with
          | .error e => .error e
          | .ok di => .ok (some (row.id, row.data_type, di, row.data))

/-- `delete_cached_data(id)`: remove the row with that id (a no-op when the
id is absent). -/
def delete_cached_data (st : CacheState) (id : Nat) : CacheState :=
  st.filter (fun r => r.id != id)

/-- Helper for `pySplitSlash`: the characters scanned so far since the last
separator are accumulated in reverse in `cur`. -/
def splitSlashAux : List Char → List Char → List String
  | [], cur => [String.mk cur.reverse]
  | c :: rest, cur =>
      if c = '/' then String.mk cur.reverse :: splitSlashAux rest []
      else splitSlashAux rest (c :: cur)

/-- Python's `s.split("/")` for the single-character separator used by the
source: `"".split("/") == [""]`, empty segments are kept. -/
def pySplitSlash (s : String) : List String := splitSlashAux s.data []

/-- One `write_points` call: the point list, the `database=` argument and the
`time_precision=` argument. -/
structure WriteCall where
  points : List Point
  database : JVal
  time_precision : Option String

/-- The body of `insert_data_database`: the three separate `if` statements
test the same immutable `data_type` against distinct literals, so at most one
branch runs; when no branch runs, `result = True` is still reached. A raised
exception (from a transform or from `write_points`, the latter modelled by
`write_ok = false`) is caught by the `except` and gives `result = False`.
Returns the attempted write calls together with the boolean result. -/
def insert_run (data_type : String) (device_info : DeviceInfo) (data : JVal)
    (write_ok : Bool) : List WriteCall × Bool :=
  if data_type = "agg_data" then
    match aggregated_data_to_json_list data device_info with
    | .error _ => ([], false)
    | .ok pts => ([⟨pts, device_info.target_database, none⟩], write_ok)
  else if data_type = "dataseries" then
    match dataseries_to_json_list data device_info with
    | .error _ => ([], false)
    | .ok pts => ([⟨pts, device_info.target_database, some "u"⟩], write_ok)
  else if data_type = "event" then
    match event_to_json_list data device_info with
    | .error _ => ([], false)
    | .ok pts => ([⟨pts, device_info.target_database, some "u"⟩], write_ok)
  else ([], true)

/-- `insert_data_database(data_type, device_info, data)`: the boolean result
of the guarded body; total — it never raises. -/
def insert_data_database (data_type : String) (device_info : DeviceInfo)
    (data : JVal) (write_ok : Bool) : Bool :=
  (insert_run data_type device_info data write_ok).2

/-- `handle_message(client, userdata, msg)`: split the topic on `/`, drop
silently unless there are exactly 5 segments, look the device up, decode,
insert, and spool to the cache when the insert reports failure. Exceptions
raised by the registry lookup or by `decode_payload` are not caught anywhere
in the function and propagate to the caller. Returns the attempted write
calls and the cache state after the call. -/
def handle_message (registry : String → Option JsonText) (st : CacheState)
    (topic : String) (payload : RawBytes) (write_ok : Bool) :
    Except PyErr (List WriteCall × CacheState) :=
  let parts := pySplitSlash topic
  if parts.length = 5 then
    match read_device_info registry (parts.getD 2 "") with
    | .error e => .error e
    | .ok none => .ok ([], st)
    | .ok (some device_info) =>
        match decode_payload payload (parts.getD 4 "") with
        | .error e => .error e
        | .ok data =>
            let res := insert_run (parts.getD 3 "") device_info data write_ok
            .ok (res.1,
              if res.2 then st
              else cache_data st (parts.getD 3 "") device_info data)
  else .ok ([], st)

/-! ## Derived definitions used in theorem statements -/

/-- The transform (and `time_precision` argument) that
`insert_data_database` selects for a given `data_type` string, or `none`
when no branch of its dispatch matches. -/
def selected_write (data_type : String) (data : JVal)
    (device_info : DeviceInfo) :
    Option (Except PyErr (List Point) × Option String) :=
  if data_type = "agg_data" then
    some (aggregated_data_to_json_list data device_info, none)
  else if data_type = "dataseries" then
    some (dataseries_to_json_list data device_info, some "u")
  else if data_type = "event" then
    some (event_to_json_list data device_info, some "u")
  else none

/-- The cache states reachable by the program: starting from the empty
table, `cache_data` (the Dispatcher spooling) and `delete_cached_data` (the
retry loop) are the only operations that modify `data_cache`. -/
inductive CacheReachable : CacheState → Prop where
  | empty : CacheReachable []
  | enqueue (st : CacheState) (data_type : String) (device_info : DeviceInfo)
      (data : JVal) : CacheReachable st →
      CacheReachable (cache_data st data_type device_info data)
  | delete (st : CacheState) (id : Nat) : CacheReachable st →
      CacheReachable (delete_cached_data st id)

/-- Example device snapshot with all defaults. -/
def exDev : DeviceInfo := { device_id := .str "dev1" }

/-- Example registry with a single registered device `dev1`. -/
def exRegistry : String → Option JsonText :=
  fun s => if s = "dev1" then some (.valid (.obj [("location", .str "lab")]))
    else none

/-- The device snapshot `read_device_info exRegistry "dev1"` produces. -/
def exDevLab : DeviceInfo := { device_id := .str "dev1", location := .str "lab" }

/-- Example registry whose stored blob carries a conflicting `device_id`. -/
def exRegistryOther : String → Option JsonText :=
  fun s => if s = "devX" then
      some (.valid (.obj [("device_id", .str "other"), ("location", .str "lab")]))
    else none

/-- The literal aggregated payload of the spec's test case:
`{timestamp:1700000000, interval_sec:1, data:{"u1":230.1, "i1":[1.0, NaN, 3.0]}}`. -/
def exAggData : JVal :=
  .obj [("timestamp", .num 1700000000), ("interval_sec", .num 1),
        ("data", .obj [("u1", .num 230.1),
                       ("i1", .arr [.num 1.0, .nan, .num 3.0])])]

/-- A dataseries payload carrying a NaN sample value:
`{data:{"ch1":{timestamps:[5], data:[NaN]}}}`. -/
def exDsNaNData : JVal :=
  .obj [("data", .obj [("ch1", .obj [("timestamps", .arr [.num 5]),
                                     ("data", .arr [.nan])])])]

/-- The single point the dataseries transform produces from `exDsNaNData`
for `exDev`: its field set carries the NaN verbatim. -/
def exDsNaNPoint : Point :=
  ⟨"dataseries", [("device_id", .str "dev1"), ("location", .str "unkown")],
   .raw (.num 5), .obj [("ch1", .nan)]⟩

/-- A dataseries payload parameterised by its channels, in the shape the
transform expects: channel name, timestamps array, data array. -/
def dsPayload (chs : List (String × List JVal × List JVal)) : JVal :=
  .obj [("data", .obj (chs.map fun c =>
    (c.1, .obj [("timestamps", .arr c.2.1), ("data", .arr c.2.2)])))]

/-- The point list the spec prescribes for a dataseries payload: one point
per (channel, sample) pair, tagged with device and location, one field, the
sample's own timestamp. -/
def dsSpecPoints (dev : DeviceInfo)
    (chs : List (String × List JVal × List JVal)) : List Point :=
  (chs.map fun c => (c.2.1.zip c.2.2).map fun tv =>
    Point.mk "dataseries"
      [("device_id", dev.device_id), ("location", dev.location)]
      (.raw tv.1) (.obj [(c.1, tv.2)])).flatten

def exAggPointsLab : List Point :=
  [⟨"agg_data",
     [("device_id", .str "dev1"), ("location", .str "lab"),
      ("interval_sec", .num 1)],
     .dt 1700000000, .obj [("u1", .num 230.1)]⟩,
   ⟨"agg_data",
     [("device_id", .str "dev1"), ("location", .str "lab"),
      ("interval_sec", .num 1), ("order", .str "00")],
     .dt 1700000000, .obj [("i1", .num 1.0)]⟩,
   ⟨"agg_data",
     [("device_id", .str "dev1"), ("location", .str "lab"),
      ("interval_sec", .num 1), ("order", .str "02")],
     .dt 1700000000, .obj [("i1", .num 3.0)]⟩]

def exAggPointsUnk : List Point :=
  [⟨"agg_data",
     [("device_id", .str "dev1"), ("location", .str "unkown"),
      ("interval_sec", .num 1)],
     .dt 1700000000, .obj [("u1", .num 230.1)]⟩,
   ⟨"agg_data",
     [("device_id", .str "dev1"), ("location", .str "unkown"),
      ("interval_sec", .num 1), ("order", .str "00")],
     .dt 1700000000, .obj [("i1", .num 1.0)]⟩,
   ⟨"agg_data",
     [("device_id", .str "dev1"), ("location", .str "unkown"),
      ("interval_sec", .num 1), ("order", .str "02")],
     .dt 1700000000, .obj [("i1", .num 3.0)]⟩]

def exDsChans : List (String × List JVal × List JVal) :=
  [("ch1", [.num 10, .num 11], [.num 1, .num 2])]

/-! ## Helper lemmas -/

theorem handle_message_eq (registry : String → Option JsonText)
    (st : CacheState) (topic : String) (payload : RawBytes) (write_ok : Bool)
    (ns ns2 did dt enc : String)
    (hsplit : pySplitSlash topic = [ns, ns2, did, dt, enc]) :
    handle_message registry st topic payload write_ok =
      match read_device_info registry did with
      | .error e => .error e
      | .ok none => .ok ([], st)
      | .ok (some device_info) =>
          match decode_payload payload enc with
          | .error e => .error e
          | .ok data =>
              let res := insert_run dt device_info data write_ok
              .ok (res.1,
                if res.2 then st else cache_data st dt device_info data) := by
  unfold handle_message
  rw [hsplit]
  simp

theorem findVal_upsert_self (k : String) (v : JVal) (l : List (String × JVal)) :
    findVal (upsert k v l) k = some v := by
  induction l with
  | nil => simp [upsert, findVal]
  | cons kv rest ih =>
      by_cases h : kv.1 = k
      · simp [upsert, h, findVal]
      · simp only [upsert, if_neg h, findVal, List.find?]
        rw [show (kv.1 == k) = false by simpa using h]
        exact ih

theorem except_bind_ok {α β : Type} {x : Except PyErr α}
    {f : α → Except PyErr β} {b : β} (h : (x >>= f) = .ok b) :
    ∃ a, x = .ok a ∧ f a = .ok b := by
  cases x with
  | error e => simp [Bind.bind, Except.bind] at h
  | ok a => exact ⟨a, rfl, by simpa [Bind.bind, Except.bind] using h⟩

theorem upsert_forall {P : String × JVal → Prop} (k : String) (v : JVal)
    (l : List (String × JVal)) (hl : ∀ kv ∈ l, P kv) (hkv : P (k, v)) :
    ∀ kv ∈ upsert k v l, P kv := by
  induction l with
  | nil => simpa [upsert] using hkv
  | cons e rest ih =>
      intro kv hmem
      by_cases h : e.1 = k
      · simp only [upsert, if_pos h, List.mem_cons] at hmem
        rcases hmem with rfl | hm
        · exact hkv
        · exact hl kv (List.mem_cons_of_mem _ hm)
      · simp only [upsert, if_neg h, List.mem_cons] at hmem
        rcases hmem with rfl | hm
        · exact hl kv (List.mem_cons_self _ _)
        · exact ih (fun x hx => hl x (List.mem_cons_of_mem _ hx)) kv hm

theorem vec_add_forall {Q : JVal → Prop} (idx : Nat) (ch : String)
    (item : JVal) (vec : List (Nat × List (String × JVal)))
    (hvec : ∀ e ∈ vec, ∀ kv ∈ e.2, Q kv.2) (hitem : Q item) :
    ∀ e ∈ vec_add idx ch item vec, ∀ kv ∈ e.2, Q kv.2 := by
  induction vec with
  | nil =>
      intro e he kv hkv
      simp only [vec_add, List.mem_singleton] at he
      subst he
      simp only [List.mem_singleton] at hkv
      subst hkv
      exact hitem
  | cons f rest ih =>
      intro e he kv hkv
      by_cases h : f.1 = idx
      · simp only [vec_add, if_pos h, List.mem_cons] at he
        rcases he with rfl | hm
        · exact @upsert_forall (fun kv => Q kv.2) ch item f.2
            (fun x hx => hvec f (List.mem_cons_self _ _) x hx) hitem kv hkv
        · exact hvec e (List.mem_cons_of_mem _ hm) kv hkv
      · simp only [vec_add, if_neg h, List.mem_cons] at he
        rcases he with rfl | hm
        · exact hvec e (List.mem_cons_self _ _) kv hkv
        · exact ih (fun x hx => hvec x (List.mem_cons_of_mem _ hx)) e hm kv hkv

theorem isnanE_ok_false (v : JVal) (h : isnanE v = .ok false) :
    v ≠ JVal.null ∧ v ≠ JVal.nan := by
  cases v <;> simp_all [isnanE]

theorem item_step_good (ch : String)
    (vec vec' : List (Nat × List (String × JVal))) (iv : Nat × JVal)
    (h : item_step ch vec iv = .ok vec')
    (hvec : ∀ e ∈ vec, ∀ kv ∈ e.2, kv.2 ≠ JVal.null ∧ kv.2 ≠ JVal.nan) :
    ∀ e ∈ vec', ∀ kv ∈ e.2, kv.2 ≠ JVal.null ∧ kv.2 ≠ JVal.nan := by
  unfold item_step at h
  cases hn : isnanE iv.2 with
  | error e => rw [hn] at h; simp [Bind.bind, Except.bind] at h
  | ok b =>
      rw [hn] at h
      cases b with
      | true =>
          simp only [Bind.bind, Except.bind, if_pos, pure, Except.pure,
            Except.ok.injEq] at h
          subst h
          exact hvec
      | false =>
          simp only [Bind.bind, Except.bind, Bool.false_eq_true, if_neg,
            pure, Except.pure, Except.ok.injEq, not_false_eq_true] at h
          subst h
          exact @vec_add_forall
            (fun v => v ≠ JVal.null ∧ v ≠ JVal.nan) iv.1 ch iv.2 vec hvec
            (isnanE_ok_false iv.2 hn)

theorem agg_items_good (ch : String) (items : List (Nat × JVal)) :
    ∀ vec vec', agg_items ch vec items = .ok vec' →
    (∀ e ∈ vec, ∀ kv ∈ e.2, kv.2 ≠ JVal.null ∧ kv.2 ≠ JVal.nan) →
    ∀ e ∈ vec', ∀ kv ∈ e.2, kv.2 ≠ JVal.null ∧ kv.2 ≠ JVal.nan := by
  induction items with
  | nil =>
      intro vec vec' h hvec
      simp only [agg_items, List.foldlM, pure, Except.pure,
        Except.ok.injEq] at h
      subst h
      exact hvec
  | cons iv rest ih =>
      intro vec vec' h hvec
      simp only [agg_items, List.foldlM] at h
      obtain ⟨vec1, h1, h2⟩ := except_bind_ok h
      exact ih vec1 vec' h2 (item_step_good ch vec vec1 iv h1 hvec)

theorem chan_step_good
    (st st' : List (String × JVal) × List (Nat × List (String × JVal)))
    (ch : String × JVal) (h : chan_step st ch = .ok st')
    (hsf : ∀ kv ∈ st.1, kv.2 ≠ JVal.null)
    (hvec : ∀ e ∈ st.2, ∀ kv ∈ e.2, kv.2 ≠ JVal.null ∧ kv.2 ≠ JVal.nan) :
    (∀ kv ∈ st'.1, kv.2 ≠ JVal.null)
    ∧ (∀ e ∈ st'.2, ∀ kv ∈ e.2, kv.2 ≠ JVal.null ∧ kv.2 ≠ JVal.nan) := by
  unfold chan_step at h
  cases hc : ch.2 <;> rw [hc] at h
  case null =>
      simp only [pure, Except.pure, Except.ok.injEq] at h
      subst h
      exact ⟨hsf, hvec⟩
  case arr items =>
      obtain ⟨vec1, h1, h2⟩ := except_bind_ok h
      simp only [pure, Except.pure, Except.ok.injEq] at h2
      subst h2
      exact ⟨hsf, agg_items_good ch.1 items.enum st.2 vec1 h1 hvec⟩
  all_goals
      simp only [pure, Except.pure, Except.ok.injEq] at h
      subst h
      refine ⟨@upsert_forall (fun kv => kv.2 ≠ JVal.null) ch.1 _ st.1 hsf
        (by simp), hvec⟩

theorem agg_chans_good (chans : List (String × JVal)) :
    ∀ st st', agg_chans st chans = .ok st' →
    (∀ kv ∈ st.1, kv.2 ≠ JVal.null) →
    (∀ e ∈ st.2, ∀ kv ∈ e.2, kv.2 ≠ JVal.null ∧ kv.2 ≠ JVal.nan) →
    (∀ kv ∈ st'.1, kv.2 ≠ JVal.null)
    ∧ (∀ e ∈ st'.2, ∀ kv ∈ e.2, kv.2 ≠ JVal.null ∧ kv.2 ≠ JVal.nan) := by
  induction chans with
  | nil =>
      intro st st' h hsf hvec
      simp only [agg_chans, List.foldlM, pure, Except.pure,
        Except.ok.injEq] at h
      subst h
      exact ⟨hsf, hvec⟩
  | cons ch rest ih =>
      intro st st' h hsf hvec
      simp only [agg_chans, List.foldlM] at h
      obtain ⟨st1, h1, h2⟩ := except_bind_ok h
      obtain ⟨hsf1, hvec1⟩ := chan_step_good st st1 ch h1 hsf hvec
      exact ih st1 st' h2 hsf1 hvec1

theorem ds_item_step_ok (tags chkvs : List (String × JVal)) (ch : String)
    (acc : List Point) (n : Nat) (t : JVal) (ds : List JVal)
    (hds : lookupKey chkvs "data" = .ok (.arr ds)) (hn : n < ds.length) :
    ds_item_step tags chkvs ch acc (n, t) =
      .ok (acc ++ [Point.mk "dataseries" tags (.raw t)
        (.obj [(ch, ds[n])])]) := by
  unfold ds_item_step
  rw [hds]
  simp [Bind.bind, Except.bind, asList, listIdx,
    List.getElem?_eq_getElem hn, pure, Except.pure]

theorem ds_items_spec (tags chkvs : List (String × JVal)) (ch : String)
    (ds : List JVal) (hds : lookupKey chkvs "data" = .ok (.arr ds))
    (ts : List JVal) :
    ∀ (n : Nat) (acc : List Point), n + ts.length ≤ ds.length →
    (List.enumFrom n ts).foldlM (ds_item_step tags chkvs ch) acc =
      .ok (acc ++ (ts.zip (ds.drop n)).map fun tv =>
        Point.mk "dataseries" tags (.raw tv.1) (.obj [(ch, tv.2)])) := by
  induction ts with
  | nil => intro n acc h; simp [List.foldlM, pure, Except.pure]
  | cons t rest ih =>
      intro n acc h
      show ((n, t) :: List.enumFrom (n + 1) rest).foldlM
        (ds_item_step tags chkvs ch) acc = _
      have hn : n < ds.length := by simp at h; omega
      rw [List.foldlM_cons, ds_item_step_ok tags chkvs ch acc n t ds hds hn]
      simp only [Bind.bind, Except.bind]
      rw [ih (n + 1) _ (by simp at h ⊢; omega)]
      congr 1
      rw [List.drop_eq_getElem_cons hn, List.zip_cons_cons, List.map_cons]
      simp only [List.append_assoc, List.singleton_append]

theorem ds_chan_step_shape (tags : List (String × JVal)) (acc : List Point)
    (ch : String) (tss dss : List JVal) (h : tss.length = dss.length) :
    ds_chan_step tags acc
      (ch, .obj [("timestamps", .arr tss), ("data", .arr dss)]) =
      .ok (acc ++ (tss.zip dss).map fun tv =>
        Point.mk "dataseries" tags (.raw tv.1) (.obj [(ch, tv.2)])) := by
  unfold ds_chan_step
  have hlk : lookupKey [("timestamps", JVal.arr tss), ("data", JVal.arr dss)]
      "data" = .ok (.arr dss) := rfl
  have hlk2 : lookupKey [("timestamps", JVal.arr tss),
      ("data", JVal.arr dss)] "timestamps" = .ok (.arr tss) := rfl
  have hfold := ds_items_spec tags
    [("timestamps", JVal.arr tss), ("data", JVal.arr dss)] ch dss hlk tss 0
    acc (by omega)
  simp only [Bind.bind, Except.bind, asObjSub, asList, hlk2]
  rw [show tss.enum = List.enumFrom 0 tss from rfl, hfold, List.drop_zero]

theorem ds_chans_spec (tags : List (String × JVal))
    (chs : List (String × List JVal × List JVal))
    (h : ∀ c ∈ chs, c.2.1.length = c.2.2.length) :
    ∀ acc : List Point,
    (chs.map fun c =>
      (c.1, JVal.obj [("timestamps", .arr c.2.1), ("data", .arr c.2.2)])
      ).foldlM (ds_chan_step tags) acc =
      .ok (acc ++ (chs.map fun c => (c.2.1.zip c.2.2).map fun tv =>
        Point.mk "dataseries" tags (.raw tv.1)
          (.obj [(c.1, tv.2)])).flatten) := by
  induction chs with
  | nil => intro acc; simp [List.foldlM, pure, Except.pure]
  | cons c rest ih =>
      intro acc
      simp only [List.map_cons, List.foldlM_cons]
      rw [ds_chan_step_shape tags acc c.1 c.2.1 c.2.2
        (h c (List.mem_cons_self _ _))]
      simp only [Bind.bind, Except.bind]
      rw [ih (fun x hx => h x (List.mem_cons_of_mem _ hx)) _]
      simp

theorem mem_id_le_fold (st : CacheState) (r : CacheRow) (hr : r ∈ st) :
    r.id ≤ (st.map (·.id)).foldr max 0 := by
  induction st with
  | nil => cases hr
  | cons a rest ih =>
      simp only [List.map_cons, List.foldr_cons]
      rcases List.mem_cons.mp hr with rfl | hm
      · exact le_max_left _ _
      · exact le_trans (ih hm) (le_max_right _ _)

theorem nextRowId_gt (st : CacheState) (r : CacheRow) (hr : r ∈ st) :
    r.id < nextRowId st :=
  Nat.lt_succ_of_le (mem_id_le_fold st r hr)

theorem reachable_pairwise (st : CacheState) (h : CacheReachable st) :
    List.Pairwise (fun a b => a.id < b.id) st := by
  induction h with
  | empty => exact List.Pairwise.nil
  | enqueue st dt dev d hst ih =>
      unfold cache_data
      refine List.pairwise_append.mpr
        ⟨ih, List.pairwise_singleton _ _, ?_⟩
      intro a ha b hb
      simp only [List.mem_singleton] at hb
      subst hb
      exact nextRowId_gt st a ha
  | delete st id hst ih =>
      unfold delete_cached_data
      exact ih.filter _

theorem reachable_rows_wf (st : CacheState) (h : CacheReachable st) :
    ∀ r ∈ st, ∃ dev, r.device_info = deviceInfoDumps dev := by
  induction h with
  | empty => simp
  | enqueue st dt dev d hst ih =>
      intro r hr
      unfold cache_data at hr
      rcases List.mem_append.mp hr with hm | hm
      · exact ih r hm
      · simp only [List.mem_singleton] at hm
        subst hm
        exact ⟨dev, rfl⟩
  | delete st id hst ih =>
      intro r hr
      exact ih r (List.mem_of_mem_filter hr)

theorem get_cached_head (row : CacheRow) (rest : CacheState)
    (dev : DeviceInfo) (hw : row.device_info = deviceInfoDumps dev) :
    get_cached_data (row :: rest) =
      .ok (some (row.id, row.data_type, dev, row.data)) := by
  rw [show get_cached_data (row :: rest) =
      (match asObjSub row.device_info with
       | .error e => .error e
       | .ok kvs =>
          match deviceInfoOfKwargs kvs with
          | .error e => .error e
          | .ok di => .ok (some (row.id, row.data_type, di, row.data)))
    from rfl, hw]
  rfl

/-! ## The claims -/

/-- C1, counterexample. The claim says a 5-segment topic with data_type
segment `"aggregated"` and a registered device leads to the aggregated
transform being applied and a store write being attempted. In the code,
`insert_data_database` dispatches on the literal `"agg_data"` (not
`"aggregated"`), so for the topic `pqopen/dt/dev1/aggregated/json` — with
`dev1` registered, a decodable payload on which the aggregated transform
would succeed, and a failing write oracle — no write call is made and
nothing is spooled: the handler returns success with zero writes. -/
theorem C1_counterexample :
    read_device_info exRegistry "dev1" = .ok (some exDevLab)
    ∧ decode_payload (.plain (.valid exAggData)) "json" = .ok exAggData
    ∧ (aggregated_data_to_json_list exAggData exDevLab).isOk = true
    ∧ handle_message exRegistry [] "pqopen/dt/dev1/aggregated/json"
        (.plain (.valid exAggData)) false = .ok ([], []) :=
  ⟨rfl, rfl, rfl, rfl⟩

/-- C1, amended. The data_type segment values that select a transform and
trigger exactly one store write are the literals `"agg_data"`,
`"dataseries"` and `"event"` tested by `insert_data_database` (captured by
`selected_write`); the topic-grammar value `"aggregated"` selects nothing.
For a 5-segment topic with a registered device and a decodable payload:
when `selected_write` picks a transform that succeeds, the pipeline
attempts exactly one write of the transformed points (with the selected
time precision) and spools exactly when the write fails; when
`selected_write` picks nothing, no write is attempted and the message is
treated as success. -/
theorem C1_amended_dispatch (registry : String → Option JsonText)
    (st : CacheState) (topic : String) (payload : RawBytes) (write_ok : Bool)
    (ns ns2 did dt enc : String) (dev : DeviceInfo) (data : JVal)
    (hsplit : pySplitSlash topic = [ns, ns2, did, dt, enc])
    (hreg : read_device_info registry did = .ok (some dev))
    (hdec : decode_payload payload enc = .ok data) :
    (∀ pts prec, selected_write dt data dev = some (.ok pts, prec) →
        handle_message registry st topic payload write_ok =
          .ok ([⟨pts, dev.target_database, prec⟩],
               if write_ok then st else cache_data st dt dev data))
    ∧ (selected_write dt data dev = none →
        handle_message registry st topic payload write_ok = .ok ([], st)) := by
  rw [handle_message_eq registry st topic payload write_ok ns ns2 did dt enc
    hsplit, hreg, hdec]
  constructor
  · intro pts prec hsel
    unfold selected_write at hsel
    unfold insert_run
    by_cases h1 : dt = "agg_data"
    · subst h1
      simp only [reduceIte, Option.some.injEq, Prod.mk.injEq] at hsel ⊢
      rw [hsel.1, ← hsel.2]
    · by_cases h2 : dt = "dataseries"
      · subst h2
        simp only [reduceIte, String.reduceEq, Option.some.injEq,
          Prod.mk.injEq] at hsel ⊢
        rw [hsel.1, ← hsel.2]
      · by_cases h3 : dt = "event"
        · subst h3
          simp only [reduceIte, String.reduceEq, Option.some.injEq,
            Prod.mk.injEq] at hsel ⊢
          rw [hsel.1, ← hsel.2]
        · simp [h1, h2, h3] at hsel
  · intro hsel
    unfold selected_write at hsel
    unfold insert_run
    by_cases h1 : dt = "agg_data"
    · simp [h1] at hsel
    · by_cases h2 : dt = "dataseries"
      · simp [h1, h2] at hsel
      · by_cases h3 : dt = "event"
        · simp [h1, h2, h3] at hsel
        · simp [h1, h2, h3]

/-- Witness for C1 amended: the `agg_data` topic with a registered device
and the literal aggregated payload attempts exactly one write of the three
transformed points. -/
theorem C1_amended_dispatch_witness :
    handle_message exRegistry [] "pq/dt/dev1/agg_data/json"
      (.plain (.valid exAggData)) true =
      .ok ([⟨exAggPointsLab, .str "daqopen", none⟩], []) := by
  have h := (C1_amended_dispatch exRegistry [] "pq/dt/dev1/agg_data/json"
    (.plain (.valid exAggData)) true "pq" "dt" "dev1" "agg_data" "json"
    exDevLab exAggData rfl rfl rfl).1 exAggPointsLab none rfl
  simpa [exDevLab] using h

/-- C2, counterexample. For a registered device, an encoding tag `"xml"`
makes `handle_message` raise `UnboundLocalError` (in `decode_payload`,
`return payload_dict` with `payload_dict` never assigned), and a payload
that is not valid JSON with encoding `"json"` makes it raise
`json.JSONDecodeError`: the exceptions propagate out of the
message-handling entry point instead of being handled as a soft
failure. -/
theorem C2_counterexample :
    read_device_info exRegistry "dev1" = .ok (some exDevLab)
    ∧ handle_message exRegistry [] "pqopen/dt/dev1/agg_data/xml"
        (.plain (.valid exAggData)) true = .error .unboundLocal
    ∧ handle_message exRegistry [] "pqopen/dt/dev1/agg_data/json"
        (.plain .invalid) true = .error .jsonDecode :=
  ⟨rfl, rfl, rfl⟩

/-- C2, amended. For every payload and every encoding tag other than
`"json"` and `"gjson"`, decoding fails with `UnboundLocalError`, and the
exception is NOT handled: `handle_message` has no handler around
`decode_payload`, so the error propagates out of the message-handling entry
point; likewise a payload that is not valid JSON propagates
`json.JSONDecodeError`. (The spec's `DecodeError`-as-soft-failure contract
is not what the code does.) -/
theorem C2_amended_decode_propagates (registry : String → Option JsonText)
    (st : CacheState) (topic : String) (payload : RawBytes) (write_ok : Bool)
    (ns ns2 did dt enc : String) (dev : DeviceInfo)
    (hsplit : pySplitSlash topic = [ns, ns2, did, dt, enc])
    (hreg : read_device_info registry did = .ok (some dev)) :
    (enc ≠ "json" → enc ≠ "gjson" →
      handle_message registry st topic payload write_ok =
        .error .unboundLocal)
    ∧ (enc = "json" → payload = .plain .invalid →
      handle_message registry st topic payload write_ok =
        .error .jsonDecode) := by
  rw [handle_message_eq registry st topic payload write_ok ns ns2 did dt enc
    hsplit, hreg]
  constructor
  · intro h1 h2
    simp [decode_payload, h1, h2]
  · intro h1 h2
    subst h1
    subst h2
    simp [decode_payload, json_loads_bytes, json_loads]

/-- Witness for C2 amended: encoding `"xml"` on a registered device makes
`handle_message` propagate `UnboundLocalError`. -/
theorem C2_amended_decode_propagates_witness :
    handle_message exRegistry [] "pq/dt/dev1/agg_data/xml"
      (.plain (.valid exAggData)) true = .error .unboundLocal :=
  (C2_amended_decode_propagates exRegistry [] "pq/dt/dev1/agg_data/xml"
    (.plain (.valid exAggData)) true "pq" "dt" "dev1" "agg_data" "xml"
    exDevLab rfl rfl).1 (by decide) (by decide)

/-- C3, counterexample. The dataseries transform copies sample values into
the point's field set verbatim: the payload
`{data:{"ch1":{timestamps:[5], data:[NaN]}}}` produces a point whose field
set is `{ch1: NaN}`, so a transform-produced point CAN carry a NaN field
value. -/
theorem C3_counterexample :
    dataseries_to_json_list exDsNaNData exDev = .ok [exDsNaNPoint]
    ∧ exDsNaNPoint.fields = .obj [("ch1", JVal.nan)] :=
  ⟨rfl, rfl⟩

/-- C3, amended. Only the aggregated transform filters field values: every
point it produces has a field set free of null values, and the field sets
of its `order`-tagged points (every point after the scalar head point) are
additionally free of NaN. The dataseries and event transforms copy payload
values verbatim and may emit null or NaN fields, and the aggregated scalar
point may carry a scalar NaN (only `None` scalars are skipped). -/
theorem C3_amended_agg_fields (data : JVal) (dev : DeviceInfo)
    (pts : List Point) (h : aggregated_data_to_json_list data dev = .ok pts) :
    (∀ p ∈ pts, ∀ kvs, p.fields = JVal.obj kvs →
      ∀ kv ∈ kvs, kv.2 ≠ JVal.null)
    ∧ (∀ p ∈ pts.tail, ∀ kvs, p.fields = JVal.obj kvs →
      ∀ kv ∈ kvs, kv.2 ≠ JVal.nan) := by
  unfold aggregated_data_to_json_list at h
  obtain ⟨kvs, h1, h⟩ := except_bind_ok h
  obtain ⟨interval, h2, h⟩ := except_bind_ok h
  obtain ⟨tsv, h3, h⟩ := except_bind_ok h
  obtain ⟨ts, h4, h⟩ := except_bind_ok h
  obtain ⟨dv, h5, h⟩ := except_bind_ok h
  obtain ⟨ddata, h6, h⟩ := except_bind_ok h
  obtain ⟨res, h7, h⟩ := except_bind_ok h
  simp only [pure, Except.pure, Except.ok.injEq] at h
  subst h
  obtain ⟨hsf, hvec⟩ := agg_chans_good ddata ([], []) res h7
    (by simp) (by simp)
  constructor
  · intro p hp fkvs hf kv hkv
    simp only [List.mem_cons] at hp
    rcases hp with rfl | hp
    · simp only [JVal.obj.injEq] at hf
      subst hf
      exact hsf kv hkv
    · obtain ⟨e, he, rfl⟩ := List.mem_map.mp hp
      simp only [JVal.obj.injEq] at hf
      subst hf
      exact (hvec e he kv hkv).1
  · intro p hp fkvs hf kv hkv
    simp only [List.tail_cons] at hp
    obtain ⟨e, he, rfl⟩ := List.mem_map.mp hp
    simp only [JVal.obj.injEq] at hf
    subst hf
    exact (hvec e he kv hkv).2

/-- Witness for C3 amended, at the literal aggregated payload: the produced
points' fields contain no null, and the order points no NaN. -/
theorem C3_amended_agg_fields_witness :
    (∀ p ∈ exAggPointsUnk, ∀ kvs, p.fields = JVal.obj kvs →
      ∀ kv ∈ kvs, kv.2 ≠ JVal.null)
    ∧ (∀ p ∈ exAggPointsUnk.tail, ∀ kvs, p.fields = JVal.obj kvs →
      ∀ kv ∈ kvs, kv.2 ≠ JVal.nan) :=
  C3_amended_agg_fields exAggData exDev exAggPointsUnk rfl

/-- C4: on input `{timestamp:1700000000, interval_sec:1, data:{"u1":230.1,
"i1":[1.0, NaN, 3.0]}}` the aggregated transform produces exactly one
scalar point with tags {device_id, location, interval_sec:1} and fields
{u1:230.1}, one point tagged order="00" with fields {i1:1.0}, one point
tagged order="02" with fields {i1:3.0}, and no point for array index 1
(the NaN entry is skipped). -/
theorem C4_aggregated_literal_case (dev : DeviceInfo) :
    aggregated_data_to_json_list exAggData dev =
      .ok [⟨"agg_data",
             [("device_id", dev.device_id), ("location", dev.location),
              ("interval_sec", .num 1)],
             .dt 1700000000, .obj [("u1", .num 230.1)]⟩,
           ⟨"agg_data",
             [("device_id", dev.device_id), ("location", dev.location),
              ("interval_sec", .num 1), ("order", .str "00")],
             .dt 1700000000, .obj [("i1", .num 1.0)]⟩,
           ⟨"agg_data",
             [("device_id", dev.device_id), ("location", dev.location),
              ("interval_sec", .num 1), ("order", .str "02")],
             .dt 1700000000, .obj [("i1", .num 3.0)]⟩] := rfl

/-- C5, counterexample. Queue ids are NOT strictly increasing in enqueue
order across a run: SQLite assigns an `INTEGER PRIMARY KEY` without
`AUTOINCREMENT` as one larger than the largest rowid currently in the
table, so after the highest-id row is deleted its id is reused. In the
trace enqueue, delete(1), enqueue, both enqueues receive id 1. -/
theorem C5_counterexample :
    ((cache_data [] "agg_data" exDev .null).map (·.id) = [1])
    ∧ ((cache_data (delete_cached_data (cache_data [] "agg_data" exDev .null)
          1) "agg_data" exDev .null).map (·.id) = [1])
    ∧ ¬ ((1 : Nat) < 1) :=
  ⟨rfl, rfl, by decide⟩

/-- C5, amended. In every reachable cache state: the live rows are strictly
ascending in id (and the row list order is enqueue order, since enqueues
append), a new enqueue is assigned an id strictly greater than every live
row's id (ids of deleted maximal rows may however be reused, see the
counterexample), peeking returns `none` on an empty queue and otherwise the
head row — the earliest-enqueued live entry, whose id is minimal —
deserialized back to its device snapshot, and `get_cached_data` performs no
state change (it is a pure function of the state), so the retry path
processes live entries in strict FIFO order. -/
theorem C5_amended_queue_fifo (st : CacheState) (h : CacheReachable st) :
    List.Pairwise (fun a b => a.id < b.id) st
    ∧ (∀ r ∈ st, r.id < nextRowId st)
    ∧ (st = [] → get_cached_data st = .ok none)
    ∧ (∀ x, get_cached_data st = .ok (some x) → ∀ r ∈ st, x.1 ≤ r.id)
    ∧ (∀ row rest, st = row :: rest →
        ∃ dev, get_cached_data st =
          .ok (some (row.id, row.data_type, dev, row.data))) := by
  have hp := reachable_pairwise st h
  have hw := reachable_rows_wf st h
  refine ⟨hp, fun r hr => nextRowId_gt st r hr,
    fun he => by rw [he]; rfl, ?_, ?_⟩
  · intro x hx r hr
    cases st with
    | nil => simp [get_cached_data, pure, Except.pure] at hx
    | cons row rest =>
        obtain ⟨dev, hdev⟩ := hw row (List.mem_cons_self _ _)
        rw [get_cached_head row rest dev hdev] at hx
        simp only [Except.ok.injEq, Option.some.injEq] at hx
        subst hx
        rcases List.mem_cons.mp hr with rfl | hm
        · exact le_refl _
        · exact le_of_lt (List.rel_of_pairwise_cons hp hm)
  · intro row rest hst
    subst hst
    obtain ⟨dev, hdev⟩ := hw row (List.mem_cons_self _ _)
    exact ⟨dev, get_cached_head row rest dev hdev⟩

/-- Witness for C5 amended at the one-enqueue state. -/
theorem C5_amended_queue_fifo_witness :
    List.Pairwise (fun a b => a.id < b.id)
      (cache_data [] "agg_data" exDev JVal.null)
    ∧ (∀ r ∈ cache_data [] "agg_data" exDev JVal.null,
        r.id < nextRowId (cache_data [] "agg_data" exDev JVal.null))
    ∧ (cache_data [] "agg_data" exDev JVal.null = [] →
        get_cached_data (cache_data [] "agg_data" exDev JVal.null) = .ok none)
    ∧ (∀ x, get_cached_data (cache_data [] "agg_data" exDev JVal.null) =
          .ok (some x) →
        ∀ r ∈ cache_data [] "agg_data" exDev JVal.null, x.1 ≤ r.id)
    ∧ (∀ row rest, cache_data [] "agg_data" exDev JVal.null = row :: rest →
        ∃ dev, get_cached_data (cache_data [] "agg_data" exDev JVal.null) =
          .ok (some (row.id, row.data_type, dev, row.data))) :=
  C5_amended_queue_fifo (cache_data [] "agg_data" exDev JVal.null)
    (CacheReachable.enqueue [] "agg_data" exDev JVal.null CacheReachable.empty)

/-- C6: `insert_data_database` is total with a `Bool` result — every
exception inside its `try` (a failing `write_points`, modelled by
`write_ok = false`, or a raising transform) is caught and converted to the
failure result `false` (second conjunct: whenever a write call was actually
attempted and the write raises, the result is `false`); and in the dispatch
path the handler creates a queue entry exactly when that boolean result is
failure (first conjunct). -/
theorem C6_write_failure_spools (registry : String → Option JsonText)
    (st : CacheState) (topic : String) (payload : RawBytes) (write_ok : Bool)
    (ns ns2 did dt enc : String) (dev : DeviceInfo) (data : JVal)
    (hsplit : pySplitSlash topic = [ns, ns2, did, dt, enc])
    (hreg : read_device_info registry did = .ok (some dev))
    (hdec : decode_payload payload enc = .ok data) :
    handle_message registry st topic payload write_ok =
      .ok ((insert_run dt dev data write_ok).1,
           if insert_data_database dt dev data write_ok then st
           else cache_data st dt dev data)
    ∧ (write_ok = false → (insert_run dt dev data write_ok).1 ≠ [] →
        insert_data_database dt dev data write_ok = false) := by
  constructor
  · rw [handle_message_eq registry st topic payload write_ok ns ns2 did dt enc
      hsplit, hreg, hdec]
    rfl
  · intro hw hne
    subst hw
    by_cases h1 : dt = "agg_data"
    · subst h1
      unfold insert_data_database insert_run
      simp only [reduceIte]
      split <;> rfl
    · by_cases h2 : dt = "dataseries"
      · subst h2
        unfold insert_data_database insert_run
        simp only [reduceIte, String.reduceEq]
        split <;> rfl
      · by_cases h3 : dt = "event"
        · subst h3
          unfold insert_data_database insert_run
          simp only [reduceIte, String.reduceEq]
          split <;> rfl
        · exfalso
          apply hne
          unfold insert_run
          simp [h1, h2, h3]

/-- Witness for C6 at the agg_data topic with a failing write: the handler
spools the tuple. -/
theorem C6_write_failure_spools_witness :
    handle_message exRegistry [] "pq/dt/dev1/agg_data/json"
      (.plain (.valid exAggData)) false =
      .ok ((insert_run "agg_data" exDevLab exAggData false).1,
           if insert_data_database "agg_data" exDevLab exAggData false then []
           else cache_data [] "agg_data" exDevLab exAggData)
    ∧ (false = false →
        (insert_run "agg_data" exDevLab exAggData false).1 ≠ [] →
        insert_data_database "agg_data" exDevLab exAggData false = false) :=
  C6_write_failure_spools exRegistry [] "pq/dt/dev1/agg_data/json"
    (.plain (.valid exAggData)) false "pq" "dt" "dev1" "agg_data" "json"
    exDevLab exAggData rfl rfl rfl

/-- C7: for every dataseries payload whose per-channel timestamp and data
arrays have equal length, the transform emits exactly one point per
(channel, sample index) pair — the flattened per-channel zip, so the total
count is the sum over channels of the sample count — each point carrying
tags {device_id, location}, the single field {channel_name: value}, and
that sample's own timestamp. -/
theorem C7_dataseries_pointwise (dev : DeviceInfo)
    (chs : List (String × List JVal × List JVal))
    (h : ∀ c ∈ chs, c.2.1.length = c.2.2.length) :
    dataseries_to_json_list (dsPayload chs) dev = .ok (dsSpecPoints dev chs)
    ∧ (dsSpecPoints dev chs).length =
        (chs.map fun c => c.2.1.length).sum := by
  constructor
  · unfold dataseries_to_json_list dsPayload
    have := ds_chans_spec
      [("device_id", dev.device_id), ("location", dev.location)] chs h []
    simp [Bind.bind, Except.bind, asObjSub, asObjItems, lookupKey, findVal,
      this, dsSpecPoints]
  · unfold dsSpecPoints
    rw [List.length_flatten, List.map_map]
    congr 1
    apply List.map_congr_left
    intro c hc
    simp [List.length_zip, h c hc]

/-- Witness for C7: `{data:{"ch1":{timestamps:[10,11], data:[1,2]}}}` gives
exactly the two prescribed points. -/
theorem C7_dataseries_pointwise_witness :
    dataseries_to_json_list (dsPayload exDsChans) exDev =
      .ok (dsSpecPoints exDev exDsChans)
    ∧ (dsSpecPoints exDev exDsChans).length =
      (exDsChans.map (fun c => c.2.1.length)).sum :=
  C7_dataseries_pointwise exDev exDsChans
    (by intro c hc; simp only [exDsChans, List.mem_singleton] at hc;
        subst hc; rfl)

/-- C8: a message whose topic does not split into exactly 5 `/`-separated
segments is dropped silently: the handler returns success with zero write
calls and an unchanged cache state, and no error is surfaced. -/
theorem C8_bad_topic_dropped (registry : String → Option JsonText)
    (st : CacheState) (topic : String) (payload : RawBytes) (write_ok : Bool)
    (h : (pySplitSlash topic).length ≠ 5) :
    handle_message registry st topic payload write_ok = .ok ([], st) := by
  unfold handle_message
  simp [h]

/-- Witness for C8 on the 3-segment topic `pqopen/dt/dev1`. -/
theorem C8_bad_topic_dropped_witness :
    handle_message exRegistry [] "pqopen/dt/dev1" (.plain (.valid exAggData))
      true = .ok ([], []) :=
  C8_bad_topic_dropped exRegistry [] "pqopen/dt/dev1"
    (.plain (.valid exAggData)) true (by decide)

/-- C9: serializing a device snapshot into a queue entry via `cache_data`
and deserializing it via `get_cached_data` yields a `DeviceInfo` equal in
all fields to the original (the full tuple, including the payload, is
recovered). -/
theorem C9_snapshot_roundtrip (data_type : String) (dev : DeviceInfo)
    (data : JVal) :
    get_cached_data (cache_data [] data_type dev data) =
      .ok (some (1, data_type, dev, data)) := rfl

/-- C10: whenever the registry lookup returns a device, the returned
`DeviceInfo`'s device_id field equals the lookup argument — the
`info["device_id"] = device_id` assignment overwrites whatever the stored
blob says, including a conflicting or missing value. -/
theorem C10_device_id_overwrite (db : String → Option JsonText) (did : String)
    (di : DeviceInfo) (h : read_device_info db did = .ok (some di)) :
    di.device_id = .str did := by
  unfold read_device_info at h
  cases hdb : db did with
  | none => rw [hdb] at h; simp at h
  | some txt =>
      rw [hdb] at h
      cases txt with
      | invalid => simp [json_loads] at h
      | valid blob =>
          simp only [json_loads] at h
          cases blob <;> simp only [asObjSub] at h <;> try exact absurd h (by simp)
          rename_i kvs
          rcases hkw : deviceInfoOfKwargs (upsert "device_id" (.str did) kvs) with e | di'
          · rw [hkw] at h; simp at h
          · rw [hkw] at h
            simp only [Except.ok.injEq, Option.some.injEq] at h
            subst h
            unfold deviceInfoOfKwargs at hkw
            rw [findVal_upsert_self] at hkw
            split at hkw
            · simp only [Except.ok.injEq] at hkw
              rw [← hkw]
            · simp at hkw

/-- Witness for C10: the stored blob carries `device_id:"other"`, the
lookup argument `devX` wins. -/
theorem C10_device_id_overwrite_witness :
    ({ device_id := .str "devX", location := .str "lab" } :
      DeviceInfo).device_id = .str "devX" :=
  C10_device_id_overwrite exRegistryOther "devX" _ rfl
